import Mathlib

/-!
# Verification of the jira-generator seeding tool

Shallow embedding of the parts of `jira_generator` that the specification's
claims are about:

* `jira_client.py` — the REST client (`_request` dry-run gate, `search_issues`,
  `find_issue_by_summary`, `create_issue`, `create_issue_link`,
  `transition_issue`).
* `setup_hierarchy.py` — `HierarchyBuilder` (`_find_or_create_issue`, the four
  per-level creators with their created/exists/errors tallies, and
  `build_hierarchy`).
* `setup_constraints.py` — `ConstraintBuilder` (`_transition_to_status`, the
  status guard in `create_constraint`, and `link_constraint_to_target`).

The remote tracker is modelled as a list of issues together with the
environment facts the code relies on: the server side of a
`summary ~ "..."` JQL clause is a *contains* match, and both a create-issue
response and every search hit carry a top-level `"key"` member.  Transport
failures (an HTTP error raised via `response.raise_for_status()`) are
modelled by two oracles in the environment: `failCreate` for the create POST
(whose exception `_find_or_create_issue` catches) and `failSearch` for the
search POST (whose exception nothing catches — it propagates through the
builders as an `Except.error` and aborts the run). -/

namespace JiraGen

/-- An issue as stored on the remote tracker.  `parentLink` is the value of the
Advanced-Roadmaps parent-link custom field `customfield_10108` (the native
sub-task `parent` field is never written by this tool). -/
structure Issue where
  key : String
  project : String
  itype : String
  summary : String
  parentLink : Option String
deriving Repr, DecidableEq

/-- Substring test: does `hay` contain `pat`?  Used to model the server side of
a JQL `summary ~ "pat"` clause, which is a contains search, not an exact
match. -/
def containsSubstr (hay pat : String) : Bool :=
  hay.toList.tails.any (fun t => pat.toList.isPrefixOf t)

/-- HTTP method of a request, as inspected by `JiraClient._request`. -/
inductive Method
  | GET
  | POST
  | PUT
  | DELETE
deriving Repr, DecidableEq

/-- From `JiraClient._request` (jira_client.py lines 67-87): when `dry_run` is
set and the method is not GET, the call short-circuits to a mocked
`200 {}` response before the session issues the request; otherwise the request
is sent.  `reachesTransport dryRun m` is true exactly when the request reaches
the transport layer. -/
def reachesTransport (dryRun : Bool) (m : Method) : Bool :=
  !(dryRun && m != Method.GET)

/-- `search_issues` posts its JQL payload to the search path
(`self.post(API_PATHS["search"], payload)`), so its method is POST. -/
def searchMethod : Method := Method.POST

/-- `create_issue` posts to the issue path. -/
def createIssueMethod : Method := Method.POST

/-- `update_issue` puts to the issue path. -/
def updateIssueMethod : Method := Method.PUT

/-- `delete` requests use the DELETE method. -/
def deleteMethod : Method := Method.DELETE

/-- Environment of a client: the dry-run flag, the remote tracker state,
oracles saying whether a given create-issue call or a given search call
raises an HTTP error (`_request` calls `response.raise_for_status()` on any
non-ok response, jira_client.py line 85, so either POST can raise), and the
counter from which fresh issue keys are drawn.  `failSearch` is keyed on the
query the find-by-summary JQL is built from: project, summary, optional
issue type. -/
structure Env where
  dryRun : Bool
  tracker : List Issue
  failCreate : String → String → String → Bool
  failSearch : String → String → Option String → Bool
  nextId : Nat

/-- Server side of the JQL built by `find_issue_by_summary`:
`project = P AND summary ~ "S" [AND issuetype = T]`.  The `~` operator is a
contains match, so every issue of the project (and type, when given) whose
summary contains `summary` is a candidate. -/
def searchCandidates (tracker : List Issue) (project summary : String)
    (itype : Option String) : List Issue :=
  tracker.filter (fun i =>
    i.project == project && containsSubstr i.summary summary &&
      (match itype with
       | some t => i.itype == t
       | none => true))

/-- `JiraClient.search_issues` for the find-by-summary JQL.  In dry-run mode the
POST to the search path is short-circuited to `{}` before any request is made
(so it cannot raise), and `result.get("issues", [])` yields no candidates at
all.  Otherwise the POST can fail: `_request` raises via
`response.raise_for_status()` (jira_client.py line 85) and nothing in the
client catches it — the error result models that propagating exception. -/
def search_issues (env : Env) (project summary : String)
    (itype : Option String) : Except Unit (List Issue) :=
  if env.dryRun then Except.ok []
  else if env.failSearch project summary itype then Except.error ()
  else Except.ok (searchCandidates env.tracker project summary itype)

/-- `JiraClient.find_issue_by_summary` (jira_client.py lines 442-457): run the
contains search, then return the first candidate whose summary is *exactly* the
requested one, or none; a raised search error propagates to the caller. -/
def find_issue_by_summary (env : Env) (project summary : String)
    (itype : Option String) : Except Unit (Option Issue) :=
  match search_issues env project summary itype with
  | Except.error e => Except.error e
  | Except.ok issues => Except.ok (issues.find? (fun i => i.summary == summary))

/-- The fields object assembled by `JiraClient.create_issue` (jira_client.py
lines 358-418), restricted to the members the claims are about.  When a
`parent_key` is given it is written to the Advanced-Roadmaps parent-link custom
field `customfield_10108`; the native sub-task `parent` field is never set
(`labels` are likewise never sent — that block is commented out in the
source). -/
structure CreateReq where
  project : String
  itype : String
  summary : String
  description : Option String
  customfield_10108 : Option String
  parent : Option String
deriving Repr, DecidableEq

/-- The JSON object an issue-producing call hands back to the builders: either
the empty object `{}` (the dry-run mock response body), or an issue object.
Both the create-issue response and every search hit carry a top-level
`"key"` member. -/
inductive IssueResp
  | empty
  | issue (i : Issue)
deriving Repr, DecidableEq

/-- Python truthiness of the response dict: `{}` is falsy. -/
def IssueResp.truthy : IssueResp → Bool
  | .empty => false
  | .issue _ => true

/-- Whether `'key' in issue` holds for the response dict. -/
def IssueResp.hasKey : IssueResp → Bool
  | .empty => false
  | .issue _ => true

/-- `issue.get('key')`. -/
def IssueResp.getKey : IssueResp → Option String
  | .empty => none
  | .issue i => some i.key

/-- Truthiness of the value `_find_or_create_issue` returns (`None` or a
response dict). -/
def respFalsy : Option IssueResp → Bool
  | none => true
  | some r => !r.truthy

/-- `JiraClient.create_issue`: returns the response (`none` models a raised
HTTP error), the new environment, and the create requests that reached the
transport layer.  In dry-run mode `_request` short-circuits, so the response is
the empty object and nothing reaches transport; otherwise a fresh key
`project ++ "-" ++ nextId` is assigned by the tracker and the issue is stored
with its parent-link field. -/
def create_issue (env : Env) (project issue_type summary : String)
    (description : Option String) (parent_key : Option String) :
    Option IssueResp × Env × List CreateReq :=
  let req : CreateReq :=
    { project := project, itype := issue_type, summary := summary,
      description := description, customfield_10108 := parent_key,
      parent := none }
  if env.dryRun then
    (some IssueResp.empty, env, [])
  else if env.failCreate project issue_type summary then
    (none, env, [req])
  else
    let key := project ++ "-" ++ toString env.nextId
    let issue : Issue :=
      { key := key, project := project, itype := issue_type,
        summary := summary, parentLink := parent_key }
    (some (IssueResp.issue issue),
     { env with tracker := env.tracker ++ [issue], nextId := env.nextId + 1 },
     [req])

/-! ## Hierarchy builder (`setup_hierarchy.py`) -/

/-- One per-level statistics record of `HierarchyBuilder.stats`.  The source
keys are `'created'`, `'exists'` and `'errors'`; `exists` is a Lean tactic
keyword, hence the trailing underscore. -/
structure Stats where
  created : Nat
  exists_ : Nat
  errors : Nat
deriving Repr, DecidableEq

/-- `HierarchyBuilder.stats`: one `Stats` record per hierarchy level. -/
structure BStats where
  strategic_objectives : Stats
  portfolio_epics : Stats
  business_outcomes : Stats
  features : Stats
deriving Repr, DecidableEq

/-- Lookup in the builder's `created_issues` dict, modelled as an association
list. -/
def cacheLookup (ck : String) : List (String × IssueResp) → Option IssueResp
  | [] => none
  | (k, v) :: rest => if k == ck then some v else cacheLookup ck rest

/-- The state `_find_or_create_issue` reads and writes: the builder's
`created_issues` cache (natural key → response) and the client environment. -/
structure FocState where
  cache : List (String × IssueResp)
  env : Env

/-- Every cached response is falsy (the case after any number of dry-run
operations, where the mock `{}` is what gets cached). -/
def cacheFalsy (s : FocState) : Bool :=
  s.cache.all (fun p => !p.2.truthy)

/-- Full builder state: cache/environment plus the per-level statistics. -/
structure BState where
  foc : FocState
  stats : BStats

/-- `HierarchyBuilder._make_key`. -/
def make_key (project issue_type summary : String) : String :=
  project ++ ":" ++ issue_type ++ ":" ++ summary

/-- Issue type names from `config.ISSUE_TYPE_NAMES`. -/
def ISSUE_TYPE_NAMES_strategic_objective : String := "Strategic Objective"

def ISSUE_TYPE_NAMES_portfolio_epic : String := "Portfolio Epic"

def ISSUE_TYPE_NAMES_business_outcome : String := "Business Outcome"

def ISSUE_TYPE_NAMES_feature : String := "Feature"

def ISSUE_TYPE_NAMES_constraint : String := "Constraint"

/-- `HierarchyBuilder._find_or_create_issue` (setup_hierarchy.py lines 34-63):
consult the cache, then search for an existing issue by exact summary, then
create.  The `try/except` wraps *only* the create call, so a raised create
error is caught and turned into `.ok none`, while a raised search error
(line 44 sits outside the `try`) propagates to the caller as `.error`. -/
def find_or_create_issue (s : FocState) (project issue_type summary : String)
    (description : Option String) (parent_key : Option String) :
    Except Unit (Option IssueResp) × FocState × List CreateReq :=
  let ck := make_key project issue_type summary
  match cacheLookup ck s.cache with
  | some r => (Except.ok (some r), s, [])
  | none =>
    match find_issue_by_summary s.env project summary (some issue_type) with
    | Except.error e => (Except.error e, s, [])
    | Except.ok (some i) =>
        (Except.ok (some (IssueResp.issue i)),
         { s with cache := (ck, IssueResp.issue i) :: s.cache }, [])
    | Except.ok none =>
        match create_issue s.env project issue_type summary description parent_key with
        | (none, env1, tr) => (Except.ok none, { s with env := env1 }, tr)
        | (some resp, env1, tr) =>
            (Except.ok (some resp), { cache := (ck, resp) :: s.cache, env := env1 }, tr)

/-- The created/exists/errors bookkeeping shared by the four per-level creators
(e.g. `create_strategic_objective`, setup_hierarchy.py lines 77-83): a truthy
response with a `'key'` member counts as created, a truthy response without one
as existing, and a falsy response (`None` or `{}`) as an error. -/
def tally (s : Stats) (resp : Option IssueResp) : Stats :=
  match resp with
  | some r =>
      if r.truthy then
        if r.hasKey then { s with created := s.created + 1 }
        else { s with exists_ := s.exists_ + 1 }
      else { s with errors := s.errors + 1 }
  | none => { s with errors := s.errors + 1 }

/-- `HierarchyBuilder.create_strategic_objective`.  A propagating search error
flies through without touching the statistics. -/
def create_strategic_objective (st : BState) (project summary : String)
    (description : Option String) :
    Except Unit (Option IssueResp) × BState × List CreateReq :=
  match find_or_create_issue st.foc project ISSUE_TYPE_NAMES_strategic_objective
      summary description none with
  | (Except.error e, foc1, tr) => (Except.error e, { st with foc := foc1 }, tr)
  | (Except.ok r, foc1, tr) =>
      (Except.ok r,
       { foc := foc1,
         stats := { st.stats with
           strategic_objectives := tally st.stats.strategic_objectives r } }, tr)

/-- `HierarchyBuilder.create_portfolio_epic`. -/
def create_portfolio_epic (st : BState) (project summary : String)
    (parent_key : Option String) (description : Option String) :
    Except Unit (Option IssueResp) × BState × List CreateReq :=
  match find_or_create_issue st.foc project ISSUE_TYPE_NAMES_portfolio_epic
      summary description parent_key with
  | (Except.error e, foc1, tr) => (Except.error e, { st with foc := foc1 }, tr)
  | (Except.ok r, foc1, tr) =>
      (Except.ok r,
       { foc := foc1,
         stats := { st.stats with
           portfolio_epics := tally st.stats.portfolio_epics r } }, tr)

/-- `HierarchyBuilder.create_business_outcome`. -/
def create_business_outcome (st : BState) (project summary : String)
    (parent_key : Option String) (description : Option String) :
    Except Unit (Option IssueResp) × BState × List CreateReq :=
  match find_or_create_issue st.foc project ISSUE_TYPE_NAMES_business_outcome
      summary description parent_key with
  | (Except.error e, foc1, tr) => (Except.error e, { st with foc := foc1 }, tr)
  | (Except.ok r, foc1, tr) =>
      (Except.ok r,
       { foc := foc1,
         stats := { st.stats with
           business_outcomes := tally st.stats.business_outcomes r } }, tr)

/-- `HierarchyBuilder.create_feature`. -/
def create_feature (st : BState) (project summary : String)
    (parent_key : Option String) (description : Option String) :
    Except Unit (Option IssueResp) × BState × List CreateReq :=
  match find_or_create_issue st.foc project ISSUE_TYPE_NAMES_feature
      summary description parent_key with
  | (Except.error e, foc1, tr) => (Except.error e, { st with foc := foc1 }, tr)
  | (Except.ok r, foc1, tr) =>
      (Except.ok r,
       { foc := foc1,
         stats := { st.stats with
           features := tally st.stats.features r } }, tr)

/-! ### Seed tree data shape (`data/hierarchy.py`)

`build_hierarchy` iterates the constant `HIERARCHY`; it is modelled over an
arbitrary tree of the same shape. -/

structure FeatureData where
  summary : String
  description : Option String
deriving Repr, DecidableEq

structure BOData where
  summary : String
  description : Option String
  features : List FeatureData
deriving Repr, DecidableEq

structure PEData where
  summary : String
  description : Option String
  business_outcomes : List BOData
deriving Repr, DecidableEq

/-- One element of `HIERARCHY`: the `strategic_objective` record (summary,
description, project) and its `portfolio_epics`. -/
structure SOEntry where
  so_summary : String
  so_description : Option String
  project : String
  portfolio_epics : List PEData
deriving Repr, DecidableEq

/-- An entry of `result['strategic_objectives']`. -/
structure SOOut where
  key : Option String
  summary : String
  project : String
deriving Repr, DecidableEq

/-- An entry of the `portfolio_epics` / `business_outcomes` / `features`
result lists: key, summary and parent key. -/
structure ChildOut where
  key : Option String
  summary : String
  parent : Option String
deriving Repr, DecidableEq

/-- The `result` dict assembled by `build_hierarchy`. -/
structure HResult where
  strategic_objectives : List SOOut
  portfolio_epics : List ChildOut
  business_outcomes : List ChildOut
  features : List ChildOut
deriving Repr, DecidableEq

def emptyR : HResult := ⟨[], [], [], []⟩

/-- Pointwise concatenation of result dicts. -/
def HResult.app (a b : HResult) : HResult :=
  ⟨a.strategic_objectives ++ b.strategic_objectives,
   a.portfolio_epics ++ b.portfolio_epics,
   a.business_outcomes ++ b.business_outcomes,
   a.features ++ b.features⟩

/-- The body of the innermost loop of `build_hierarchy` (lines 239-254): create
one Feature under `boKey`; a truthy response is appended to
`result['features']`; a propagating search error aborts the traversal. -/
def processFeature (project : String) (boKey : Option String) (st : BState)
    (fd : FeatureData) : BState × Except Unit HResult × List CreateReq :=
  match create_feature st project fd.summary boKey fd.description with
  | (Except.error e, st1, t1) => (st1, Except.error e, t1)
  | (Except.ok (some (IssueResp.issue i)), st1, t1) =>
      (st1,
       Except.ok
         { emptyR with
           features := [{ key := some i.key, summary := fd.summary, parent := boKey }] },
       t1)
  | (Except.ok _, st1, t1) => (st1, Except.ok emptyR, t1)

/-- The Features loop under one Business Outcome.  An uncaught error from an
iteration aborts the loop; nothing after it runs. -/
def processFeatures (project : String) (boKey : Option String) :
    BState → List FeatureData → BState × Except Unit HResult × List CreateReq
  | st, [] => (st, Except.ok emptyR, [])
  | st, fd :: rest =>
      match processFeature project boKey st fd with
      | (st1, Except.error e, t1) => (st1, Except.error e, t1)
      | (st1, Except.ok r1, t1) =>
          match processFeatures project boKey st1 rest with
          | (st2, Except.error e, t2) => (st2, Except.error e, t1 ++ t2)
          | (st2, Except.ok r2, t2) => (st2, Except.ok (HResult.app r1 r2), t1 ++ t2)

/-- One Business Outcome and its subtree (lines 217-254): a falsy response
skips the whole subtree (`continue`); a truthy one is recorded and its key
becomes the parent of its Features; an error propagates. -/
def processBO (project : String) (peKey : Option String) (st : BState)
    (bd : BOData) : BState × Except Unit HResult × List CreateReq :=
  match create_business_outcome st project bd.summary peKey bd.description with
  | (Except.error e, st1, t1) => (st1, Except.error e, t1)
  | (Except.ok (some (IssueResp.issue i)), st1, t1) =>
      match processFeatures project (some i.key) st1 bd.features with
      | (st2, Except.error e, t2) => (st2, Except.error e, t1 ++ t2)
      | (st2, Except.ok r2, t2) =>
          (st2,
           Except.ok
             (HResult.app
               { emptyR with
                 business_outcomes :=
                   [{ key := some i.key, summary := bd.summary, parent := peKey }] }
               r2),
           t1 ++ t2)
  | (Except.ok _, st1, t1) => (st1, Except.ok emptyR, t1)

/-- The Business Outcomes loop under one Portfolio Epic. -/
def processBOs (project : String) (peKey : Option String) :
    BState → List BOData → BState × Except Unit HResult × List CreateReq
  | st, [] => (st, Except.ok emptyR, [])
  | st, bd :: rest =>
      match processBO project peKey st bd with
      | (st1, Except.error e, t1) => (st1, Except.error e, t1)
      | (st1, Except.ok r1, t1) =>
          match processBOs project peKey st1 rest with
          | (st2, Except.error e, t2) => (st2, Except.error e, t1 ++ t2)
          | (st2, Except.ok r2, t2) => (st2, Except.ok (HResult.app r1 r2), t1 ++ t2)

/-- One Portfolio Epic and its subtree (lines 195-254). -/
def processPE (project : String) (soKey : Option String) (st : BState)
    (pd : PEData) : BState × Except Unit HResult × List CreateReq :=
  match create_portfolio_epic st project pd.summary soKey pd.description with
  | (Except.error e, st1, t1) => (st1, Except.error e, t1)
  | (Except.ok (some (IssueResp.issue i)), st1, t1) =>
      match processBOs project (some i.key) st1 pd.business_outcomes with
      | (st2, Except.error e, t2) => (st2, Except.error e, t1 ++ t2)
      | (st2, Except.ok r2, t2) =>
          (st2,
           Except.ok
             (HResult.app
               { emptyR with
                 portfolio_epics :=
                   [{ key := some i.key, summary := pd.summary, parent := soKey }] }
               r2),
           t1 ++ t2)
  | (Except.ok _, st1, t1) => (st1, Except.ok emptyR, t1)

/-- The Portfolio Epics loop under one Strategic Objective.  A caught create
failure yields a falsy response and the loop continues with the next sibling;
an uncaught search error aborts the loop (and the whole run). -/
def processPEs (project : String) (soKey : Option String) :
    BState → List PEData → BState × Except Unit HResult × List CreateReq
  | st, [] => (st, Except.ok emptyR, [])
  | st, pd :: rest =>
      match processPE project soKey st pd with
      | (st1, Except.error e, t1) => (st1, Except.error e, t1)
      | (st1, Except.ok r1, t1) =>
          match processPEs project soKey st1 rest with
          | (st2, Except.error e, t2) => (st2, Except.error e, t1 ++ t2)
          | (st2, Except.ok r2, t2) => (st2, Except.ok (HResult.app r1 r2), t1 ++ t2)

/-- One Strategic Objective and its subtree (lines 170-254): a falsy response
logs, counts an error (inside `create_strategic_objective`) and skips the
children; an error propagates. -/
def processSO (st : BState) (so : SOEntry) :
    BState × Except Unit HResult × List CreateReq :=
  match create_strategic_objective st so.project so.so_summary so.so_description with
  | (Except.error e, st1, t1) => (st1, Except.error e, t1)
  | (Except.ok (some (IssueResp.issue i)), st1, t1) =>
      match processPEs so.project (some i.key) st1 so.portfolio_epics with
      | (st2, Except.error e, t2) => (st2, Except.error e, t1 ++ t2)
      | (st2, Except.ok r2, t2) =>
          (st2,
           Except.ok
             (HResult.app
               { emptyR with
                 strategic_objectives :=
                   [{ key := some i.key, summary := so.so_summary, project := so.project }] }
               r2),
           t1 ++ t2)
  | (Except.ok _, st1, t1) => (st1, Except.ok emptyR, t1)

/-- `HierarchyBuilder.build_hierarchy` (lines 156-256), over an arbitrary seed
tree of the `HIERARCHY` shape.  The error component models an exception
propagating out of `build_hierarchy` to the top-level handler, which aborts
the whole run. -/
def build_hierarchy : BState → List SOEntry → BState × Except Unit HResult × List CreateReq
  | st, [] => (st, Except.ok emptyR, [])
  | st, so :: rest =>
      match processSO st so with
      | (st1, Except.error e, t1) => (st1, Except.error e, t1)
      | (st1, Except.ok r1, t1) =>
          match build_hierarchy st1 rest with
          | (st2, Except.error e, t2) => (st2, Except.error e, t1 ++ t2)
          | (st2, Except.ok r2, t2) => (st2, Except.ok (HResult.app r1 r2), t1 ++ t2)

def initialStats : Stats := ⟨0, 0, 0⟩

def initialBStats : BStats := ⟨initialStats, initialStats, initialStats, initialStats⟩

/-- One invocation of `setup_hierarchy`: a fresh builder (empty cache, zeroed
statistics) run against the given environment. -/
def build_hierarchy_run (env : Env) (tree : List SOEntry) :
    BState × Except Unit HResult × List CreateReq :=
  build_hierarchy { foc := { cache := [], env := env }, stats := initialBStats } tree

/-! ## Constraint builder (`setup_constraints.py`) -/

/-- One workflow transition as configured on the server: source status,
destination status, transition name. -/
structure WTrans where
  src : String
  dst : String
  name : String
deriving Repr, DecidableEq

/-- The constraint workflow from `config.CONSTRAINT_WORKFLOW['transitions']`. -/
def CONSTRAINT_WORKFLOW_transitions : List WTrans :=
  [⟨"Identified", "In Progress", "Start Work"⟩,
   ⟨"In Progress", "Ready for Review", "Submit for Review"⟩,
   ⟨"Ready for Review", "Closed", "Approve & Close"⟩,
   ⟨"Ready for Review", "In Progress", "Reject"⟩,
   ⟨"In Progress", "Identified", "Stop Work"⟩]

/-- `JiraClient.transition_issue` (jira_client.py lines 522-543): fetch the
transitions currently available on the issue (those leaving its current
status), execute the first whose name matches and return `true`; when no name
matches, log a warning and return `false` *without raising*.  The result is
`(matched, new status, names of the execute POSTs issued)`. -/
def transition_issue (wf : List WTrans) (status transition_name : String) :
    Bool × String × List String :=
  match (wf.filter (fun t => t.src == status)).find?
      (fun t => t.name == transition_name) with
  | some t => (true, t.dst, [transition_name])
  | none => (false, status, [])

/-- The transition-path lookup table of
`ConstraintBuilder._transition_to_status` (setup_constraints.py lines
137-141); `dict.get(target, [])` yields the empty path for any other status. -/
def transition_paths (target : String) : List String :=
  if target == "In Progress" then ["Start Work"]
  else if target == "Ready for Review" then ["Start Work", "Submit for Review"]
  else if target == "Closed" then ["Start Work", "Submit for Review", "Approve & Close"]
  else []

/-- One iteration of the `_transition_to_status` loop: call
`transition_issue`, ignore its boolean result, extend the executed/attempted
bookkeeping. -/
def transition_step (wf : List WTrans)
    (acc : String × List String × List String) (name : String) :
    String × List String × List String :=
  match acc with
  | (st, execd, attempted) =>
      match transition_issue wf st name with
      | (_, st1, posts) => (st1, execd ++ posts, attempted ++ [name])

/-- `ConstraintBuilder._transition_to_status` (lines 134-151): walk the path,
calling `transition_issue` for each name.  The boolean soft-failure result of
`transition_issue` is never inspected; the `try/except` around the call only
breaks the loop on a *raised* exception, which a name mismatch is not, so the
walk continues past mismatches.  The result is
`(final status, executed transition POSTs, attempted transition names)`. -/
def transition_to_status (wf : List WTrans) (status0 target : String) :
    String × List String × List String :=
  (transition_paths target).foldl (transition_step wf) (status0, [], [])

/-- The status handling of `ConstraintBuilder.create_constraint` for a newly
created constraint (lines 122-125): read `status` with default
`"Identified"`; only when the target differs from `"Identified"` is
`_transition_to_status` invoked (a fresh constraint starts at the workflow's
initial status `"Identified"`). -/
def constraint_status_calls (wf : List WTrans) (status : Option String) :
    String × List String × List String :=
  let target := status.getD "Identified"
  if target != "Identified" then transition_to_status wf "Identified" target
  else ("Identified", [], [])

/-- Link-creation statistics of `ConstraintBuilder.stats`. -/
structure LinkStats where
  links_created : Nat
  links_failed : Nat
deriving Repr, DecidableEq

/-- An issue-link POST payload. -/
structure LinkReq where
  ltype : String
  inwardIssue : String
  outwardIssue : String
deriving Repr, DecidableEq

/-- `JiraClient.create_issue_link` (jira_client.py lines 480-504): resolve the
link-type name against the known link types; when unknown, log an error and
return `false` without sending anything; otherwise POST the link payload and
return `true`.  The result carries the link requests that were sent. -/
def create_issue_link (link_types : List String)
    (inward_issue outward_issue link_type : String) : Bool × List LinkReq :=
  if link_types.contains link_type then
    (true, [⟨link_type, inward_issue, outward_issue⟩])
  else
    (false, [])

/-- The `blocks` record of a constraint (`data/constraints.py`). -/
structure BlocksInfo where
  project : String
  btype : String
  summary : String
deriving Repr, DecidableEq

/-- The `type_mapping` of `ConstraintBuilder._find_target_issue` (lines
49-53): map the friendly names onto `ISSUE_TYPE_NAMES`, leaving any other name
unchanged. -/
def type_mapping (t : String) : String :=
  if t == "Business Outcome" then ISSUE_TYPE_NAMES_business_outcome
  else if t == "Feature" then ISSUE_TYPE_NAMES_feature
  else t

/-- `ConstraintBuilder._find_target_issue`: exact-match find of the link
target; a raised search error propagates. -/
def find_target_issue (env : Env) (project issue_type summary : String) :
    Except Unit (Option Issue) :=
  find_issue_by_summary env project summary (some (type_mapping issue_type))

/-- `ConstraintBuilder.link_constraint_to_target` (setup_constraints.py lines
153-197): resolve the target by exact match (line 172, outside the `try`, so
a raised search error propagates); when absent, count a link failure and send
nothing.  Otherwise call `create_issue_link` — whose boolean result is
*ignored* — then increment `links_created` and return `true`; the `except`
branch (counting `links_failed`) is reached only by a raised exception, which
an unknown link type is not. -/
def link_constraint_to_target (env : Env) (link_types : List String)
    (stats : LinkStats) (constraint_key : String) (blocks : BlocksInfo) :
    Except Unit Bool × LinkStats × List LinkReq :=
  match find_target_issue env blocks.project blocks.btype blocks.summary with
  | Except.error e => (Except.error e, stats, [])
  | Except.ok none =>
      (Except.ok false, { stats with links_failed := stats.links_failed + 1 }, [])
  | Except.ok (some target) =>
      match create_issue_link link_types target.key constraint_key "Blocks" with
      | (_, reqs) =>
          (Except.ok true,
           { stats with links_created := stats.links_created + 1 }, reqs)

/-! ## Concrete scenarios used by the counterexamples and witnesses -/

/-- An empty tracker, live (non-dry-run) client, no create failures. -/
def env0 : Env :=
  { dryRun := false, tracker := [], failCreate := fun _ _ _ => false,
    failSearch := fun _ _ _ => false, nextId := 0 }

/-- A one-branch seed tree: one Strategic Objective with one Portfolio Epic,
one Business Outcome and one Feature, all in project `P`. -/
def tree1 : List SOEntry :=
  [{ so_summary := "Obj A", so_description := none, project := "P",
     portfolio_epics :=
       [{ summary := "Epic A", description := none,
          business_outcomes :=
            [{ summary := "Outcome A", description := none,
               features := [{ summary := "Feat A", description := none }] }] }] }]

/-- First Hierarchy Builder run against the empty tracker. -/
def c1FirstRun : BState × Except Unit HResult × List CreateReq :=
  build_hierarchy_run env0 tree1

/-- Second Hierarchy Builder run (a fresh builder) against the tracker state
left behind by the first run. -/
def c1SecondRun : BState × Except Unit HResult × List CreateReq :=
  build_hierarchy_run c1FirstRun.1.foc.env tree1

/-- Candidate issues for the exact-match lookup example: the server's contains
search returns the `v2` issue as well, and before the exact one. -/
def deployGateV2 : Issue :=
  { key := "P-2", project := "P", itype := "Feature",
    summary := "Deploy gate v2", parentLink := none }

def deployGateV1 : Issue :=
  { key := "P-1", project := "P", itype := "Feature",
    summary := "Deploy gate", parentLink := none }

/-- A live client over a given tracker (used to state the lookup claim). -/
def mkFindEnv (tracker : List Issue) : Env :=
  { dryRun := false, tracker := tracker, failCreate := fun _ _ _ => false,
    failSearch := fun _ _ _ => false, nextId := 0 }

/-- A dry-run client over a tracker that does contain the issue looked up. -/
def envDryLookup : Env :=
  { dryRun := true, tracker := [deployGateV1], failCreate := fun _ _ _ => false,
    failSearch := fun _ _ _ => false, nextId := 8 }

/-- A server workflow under which the first path entry `"Start Work"` matches
no available transition while the later path entry `"Submit for Review"`
does. -/
def wfNoStartWork : List WTrans :=
  [⟨"Identified", "Ready for Review", "Submit for Review"⟩]

/-- A Business Outcome present on the tracker, to be used as a link target. -/
def targetBO : Issue :=
  { key := "DEVEX-1", project := "DEVEX", itype := "Business Outcome",
    summary := "On-Demand Environment Provisioning", parentLink := none }

def envWithTarget : Env :=
  { dryRun := false, tracker := [targetBO], failCreate := fun _ _ _ => false,
    failSearch := fun _ _ _ => false, nextId := 2 }

def blocksTarget : BlocksInfo :=
  ⟨"DEVEX", "Business Outcome", "On-Demand Environment Provisioning"⟩

/-- A fresh builder state over the empty live tracker. -/
def st0 : BState := { foc := { cache := [], env := env0 }, stats := initialBStats }

/-- One Business Outcome with one Feature. -/
def bdOutcomeA : BOData :=
  { summary := "Outcome A", description := none,
    features := [{ summary := "Feat A", description := none }] }

/-- The feature create request the builder sends while processing
`bdOutcomeA` from `st0`: its parent-link field carries the key `P-0` that the
tracker assigned to the Business Outcome created just above it. -/
def featReqA : CreateReq :=
  { project := "P", itype := "Feature", summary := "Feat A", description := none,
    customfield_10108 := some "P-0", parent := none }

/-- An environment in which every Portfolio Epic creation raises. -/
def envPEFail : Env :=
  { dryRun := false, tracker := [],
    failCreate := fun _ t _ => t == "Portfolio Epic",
    failSearch := fun _ _ _ => false, nextId := 0 }

def stPEFail : BState :=
  { foc := { cache := [], env := envPEFail }, stats := initialBStats }

/-- A Portfolio Epic with a child subtree, whose creation will fail under
`envPEFail`. -/
def pdEpicF : PEData :=
  { summary := "Epic F", description := none,
    business_outcomes :=
      [{ summary := "BO F", description := none,
         features := [{ summary := "Feat F", description := none }] }] }

/-- The failing Portfolio Epic create call of the `c5` witness scenario. -/
def cpeF : Except Unit (Option IssueResp) × BState × List CreateReq :=
  create_portfolio_epic stPEFail "P" pdEpicF.summary (some "P-9") pdEpicF.description

/-- An environment in which the find-by-summary search for `"Epic F"` raises
a transport error (and no create call fails). -/
def envSearchFail : Env :=
  { dryRun := false, tracker := [],
    failCreate := fun _ _ _ => false,
    failSearch := fun _ s _ => s == "Epic F", nextId := 0 }

def stSearchFail : BState :=
  { foc := { cache := [], env := envSearchFail }, stats := initialBStats }

/-- A sibling Portfolio Epic under the same Strategic Objective as
`pdEpicF`. -/
def pdSibling : PEData :=
  { summary := "Epic G", description := none, business_outcomes := [] }

/-- A dry-run client over the empty tracker. -/
def envDry0 : Env :=
  { dryRun := true, tracker := [], failCreate := fun _ _ _ => false,
    failSearch := fun _ _ _ => false, nextId := 0 }

/-! ## Helper lemmas -/

theorem containsSubstr_refl (s : String) : containsSubstr s s = true := by
  unfold containsSubstr
  rw [List.any_eq_true]
  exact ⟨s.toList, (List.mem_tails _ _).mpr (List.suffix_refl _), by simp⟩

/-- A cached response found in an all-falsy cache is falsy. -/
theorem cacheLookup_falsy {ck : String} :
    ∀ {c : List (String × IssueResp)}, c.all (fun p => !p.2.truthy) = true →
      ∀ {r : IssueResp}, cacheLookup ck c = some r → r.truthy = false := by
  intro c
  induction c with
  | nil => intro _ r h; simp [cacheLookup] at h
  | cons p rest ih =>
      intro hall r h
      rw [List.all_cons, Bool.and_eq_true] at hall
      unfold cacheLookup at h
      by_cases hk : p.1 == ck
      · rw [if_pos hk] at h
        cases h
        simpa using hall.1
      · rw [if_neg hk] at h
        exact ih hall.2 h

/-- A response with `truthy = false` is the empty object. -/
theorem IssueResp.eq_empty_of_not_truthy {r : IssueResp} (h : r.truthy = false) :
    r = IssueResp.empty := by
  cases r with
  | empty => rfl
  | issue i => simp [IssueResp.truthy] at h

/-- Every create request that `create_issue` sends is exactly the request it
assembled: project, type, summary, description, the parent key in
`customfield_10108`, and no native `parent` field. -/
theorem create_issue_trace (env : Env) (p ty sm : String) (d pk : Option String) :
    ∀ r ∈ (create_issue env p ty sm d pk).2.2,
      r = { project := p, itype := ty, summary := sm, description := d,
            customfield_10108 := pk, parent := none } := by
  intro r hr
  unfold create_issue at hr
  by_cases h1 : env.dryRun
  · simp [h1] at hr
  · by_cases h2 : env.failCreate p ty sm <;> simp [h1, h2] at hr <;> exact hr

/-- Same property lifted to `_find_or_create_issue`. -/
theorem find_or_create_issue_trace (s : FocState) (p ty sm : String)
    (d pk : Option String) :
    ∀ r ∈ (find_or_create_issue s p ty sm d pk).2.2,
      r = { project := p, itype := ty, summary := sm, description := d,
            customfield_10108 := pk, parent := none } := by
  intro r hr
  unfold find_or_create_issue at hr
  cases hc : cacheLookup (make_key p ty sm) s.cache with
  | some v => simp [hc] at hr
  | none =>
      simp only [hc] at hr
      cases hf : find_issue_by_summary s.env p sm (some ty) with
      | error e => simp [hf] at hr
      | ok oi =>
          cases oi with
          | some i => simp [hf] at hr
          | none =>
              simp only [hf] at hr
              have := create_issue_trace s.env p ty sm d pk
              rcases he : create_issue s.env p ty sm d pk with ⟨ro, env1, tr⟩
              rw [he] at this
              simp only [he] at hr
              cases ro with
              | none => exact this r (by simpa using hr)
              | some resp => exact this r (by simpa using hr)

/-- Every create request sent by `create_feature` is the Feature request with
the given parent key in `customfield_10108` and no native parent. -/
theorem create_feature_trace (st : BState) (p sm : String) (pk d : Option String) :
    ∀ r ∈ (create_feature st p sm pk d).2.2,
      r = { project := p, itype := ISSUE_TYPE_NAMES_feature, summary := sm,
            description := d, customfield_10108 := pk, parent := none } := by
  intro r hr
  have h := find_or_create_issue_trace st.foc p ISSUE_TYPE_NAMES_feature sm d pk
  rcases hf : find_or_create_issue st.foc p ISSUE_TYPE_NAMES_feature sm d pk
    with ⟨ro, foc1, tr⟩
  rw [hf] at h
  apply h
  unfold create_feature at hr
  simp only [hf] at hr
  cases ro with
  | error e => simpa using hr
  | ok r0 => simpa using hr

theorem create_business_outcome_trace (st : BState) (p sm : String)
    (pk d : Option String) :
    ∀ r ∈ (create_business_outcome st p sm pk d).2.2,
      r = { project := p, itype := ISSUE_TYPE_NAMES_business_outcome, summary := sm,
            description := d, customfield_10108 := pk, parent := none } := by
  intro r hr
  have h := find_or_create_issue_trace st.foc p ISSUE_TYPE_NAMES_business_outcome sm d pk
  rcases hf : find_or_create_issue st.foc p ISSUE_TYPE_NAMES_business_outcome sm d pk
    with ⟨ro, foc1, tr⟩
  rw [hf] at h
  apply h
  unfold create_business_outcome at hr
  simp only [hf] at hr
  cases ro with
  | error e => simpa using hr
  | ok r0 => simpa using hr

theorem create_portfolio_epic_trace (st : BState) (p sm : String)
    (pk d : Option String) :
    ∀ r ∈ (create_portfolio_epic st p sm pk d).2.2,
      r = { project := p, itype := ISSUE_TYPE_NAMES_portfolio_epic, summary := sm,
            description := d, customfield_10108 := pk, parent := none } := by
  intro r hr
  have h := find_or_create_issue_trace st.foc p ISSUE_TYPE_NAMES_portfolio_epic sm d pk
  rcases hf : find_or_create_issue st.foc p ISSUE_TYPE_NAMES_portfolio_epic sm d pk
    with ⟨ro, foc1, tr⟩
  rw [hf] at h
  apply h
  unfold create_portfolio_epic at hr
  simp only [hf] at hr
  cases ro with
  | error e => simpa using hr
  | ok r0 => simpa using hr

theorem create_strategic_objective_trace (st : BState) (p sm : String)
    (d : Option String) :
    ∀ r ∈ (create_strategic_objective st p sm d).2.2,
      r = { project := p, itype := ISSUE_TYPE_NAMES_strategic_objective, summary := sm,
            description := d, customfield_10108 := none, parent := none } := by
  intro r hr
  have h := find_or_create_issue_trace st.foc p ISSUE_TYPE_NAMES_strategic_objective sm d none
  rcases hf : find_or_create_issue st.foc p ISSUE_TYPE_NAMES_strategic_objective sm d none
    with ⟨ro, foc1, tr⟩
  rw [hf] at h
  apply h
  unfold create_strategic_objective at hr
  simp only [hf] at hr
  cases ro with
  | error e => simpa using hr
  | ok r0 => simpa using hr

/-- Every request sent by one Feature iteration is the expected Feature
request. -/
theorem processFeature_trace (project : String) (boKey : Option String)
    (st : BState) (fd : FeatureData) :
    ∀ r ∈ (processFeature project boKey st fd).2.2,
      r = { project := project, itype := ISSUE_TYPE_NAMES_feature,
            summary := fd.summary, description := fd.description,
            customfield_10108 := boKey, parent := none } := by
  intro r hr
  have h := create_feature_trace st project fd.summary boKey fd.description
  rcases hc : create_feature st project fd.summary boKey fd.description
    with ⟨ro, st1, t1⟩
  rw [hc] at h
  unfold processFeature at hr
  simp only [hc] at hr
  cases ro with
  | error e => exact h r (by simpa using hr)
  | ok oi =>
      cases oi with
      | none => exact h r (by simpa using hr)
      | some resp =>
          cases resp with
          | empty => exact h r (by simpa using hr)
          | issue i => exact h r (by simpa using hr)

/-- Every request sent by the Features loop under a Business Outcome carries
the Business Outcome's key in the parent-link custom field and never the
native parent field. -/
theorem processFeatures_trace (project : String) (boKey : Option String) :
    ∀ (fs : List FeatureData) (st : BState),
      ∀ r ∈ (processFeatures project boKey st fs).2.2,
        r.itype = ISSUE_TYPE_NAMES_feature ∧ r.customfield_10108 = boKey ∧
        r.parent = none := by
  intro fs
  induction fs with
  | nil => intro st r hr; simp [processFeatures] at hr
  | cons fd rest ih =>
      intro st r hr
      unfold processFeatures at hr
      rcases h1 : processFeature project boKey st fd with ⟨st1, e1, t1⟩
      simp only [h1] at hr
      cases e1 with
      | error e =>
          have he := processFeature_trace project boKey st fd r
            (by rw [h1]; simpa using hr)
          rw [he]
          exact ⟨rfl, rfl, rfl⟩
      | ok r1 =>
          rcases h2 : processFeatures project boKey st1 rest with ⟨st2, e2, t2⟩
          simp only [h2] at hr
          have hr2 : r ∈ t1 ++ t2 := by
            cases e2 with
            | error e => simpa using hr
            | ok r2 => simpa using hr
          rw [List.mem_append] at hr2
          cases hr2 with
          | inl hmem =>
              have he := processFeature_trace project boKey st fd r
                (by rw [h1]; exact hmem)
              rw [he]
              exact ⟨rfl, rfl, rfl⟩
          | inr hmem =>
              exact ih st1 r (by rw [h2]; exact hmem)

/-- `tally` on a falsy response increments exactly the error counter. -/
theorem tally_falsy (s : Stats) {ro : Option IssueResp} (h : respFalsy ro = true) :
    tally s ro = { s with errors := s.errors + 1 } := by
  cases ro with
  | none => rfl
  | some r =>
      have ht : r.truthy = false := by simpa [respFalsy] using h
      rw [IssueResp.eq_empty_of_not_truthy ht]
      rfl

/-- When `create_portfolio_epic` completes without a propagating error, its
statistics effect is exactly one `tally` on the Portfolio Epic level. -/
theorem create_portfolio_epic_stats_ok (st : BState) (p sm : String)
    (pk d : Option String) (ro : Option IssueResp)
    (h : (create_portfolio_epic st p sm pk d).1 = Except.ok ro) :
    (create_portfolio_epic st p sm pk d).2.1.stats
        = { st.stats with portfolio_epics :=
              (tally st.stats.portfolio_epics ro) } := by
  unfold create_portfolio_epic at h ⊢
  rcases hf : find_or_create_issue st.foc p ISSUE_TYPE_NAMES_portfolio_epic sm d pk
    with ⟨e1, foc1, tr⟩
  rw [hf] at h
  cases e1 with
  | error e => simp at h
  | ok r =>
      have h2 : r = ro := by simpa using h
      rw [h2]

/-- No request of a Business Outcome subtree ever sets the native parent
field. -/
theorem processBO_trace_parent (project : String) (peKey : Option String)
    (st : BState) (bd : BOData) :
    ∀ r ∈ (processBO project peKey st bd).2.2, r.parent = none := by
  intro r hr
  have hbo := create_business_outcome_trace st project bd.summary peKey bd.description
  unfold processBO at hr
  rcases hc : create_business_outcome st project bd.summary peKey bd.description
    with ⟨ro, st1, t1⟩
  rw [hc] at hbo
  simp only [hc] at hr
  cases ro with
  | error e => rw [hbo r (by simpa using hr)]
  | ok oi =>
      cases oi with
      | none => rw [hbo r (by simpa using hr)]
      | some resp =>
          cases resp with
          | empty => rw [hbo r (by simpa using hr)]
          | issue i =>
              rcases h2 : processFeatures project (some i.key) st1 bd.features
                with ⟨st2, e2, t2⟩
              simp only [h2] at hr
              have hr2 : r ∈ t1 ++ t2 := by
                cases e2 with
                | error e => simpa using hr
                | ok r2 => simpa using hr
              rw [List.mem_append] at hr2
              cases hr2 with
              | inl hmem => rw [hbo r hmem]
              | inr hmem =>
                  exact (processFeatures_trace project (some i.key) bd.features st1 r
                    (by rw [h2]; exact hmem)).2.2

theorem processBOs_trace_parent (project : String) (peKey : Option String) :
    ∀ (bs : List BOData) (st : BState),
      ∀ r ∈ (processBOs project peKey st bs).2.2, r.parent = none := by
  intro bs
  induction bs with
  | nil => intro st r hr; simp [processBOs] at hr
  | cons bd rest ih =>
      intro st r hr
      unfold processBOs at hr
      rcases h1 : processBO project peKey st bd with ⟨st1, e1, t1⟩
      simp only [h1] at hr
      cases e1 with
      | error e =>
          exact processBO_trace_parent project peKey st bd r
            (by rw [h1]; simpa using hr)
      | ok r1 =>
          rcases h2 : processBOs project peKey st1 rest with ⟨st2, e2, t2⟩
          simp only [h2] at hr
          have hr2 : r ∈ t1 ++ t2 := by
            cases e2 with
            | error e => simpa using hr
            | ok r2 => simpa using hr
          rw [List.mem_append] at hr2
          cases hr2 with
          | inl hmem =>
              exact processBO_trace_parent project peKey st bd r
                (by rw [h1]; exact hmem)
          | inr hmem => exact ih st1 r (by rw [h2]; exact hmem)

theorem processPE_trace_parent (project : String) (soKey : Option String)
    (st : BState) (pd : PEData) :
    ∀ r ∈ (processPE project soKey st pd).2.2, r.parent = none := by
  intro r hr
  have hpe := create_portfolio_epic_trace st project pd.summary soKey pd.description
  unfold processPE at hr
  rcases hc : create_portfolio_epic st project pd.summary soKey pd.description
    with ⟨ro, st1, t1⟩
  rw [hc] at hpe
  simp only [hc] at hr
  cases ro with
  | error e => rw [hpe r (by simpa using hr)]
  | ok oi =>
      cases oi with
      | none => rw [hpe r (by simpa using hr)]
      | some resp =>
          cases resp with
          | empty => rw [hpe r (by simpa using hr)]
          | issue i =>
              rcases h2 : processBOs project (some i.key) st1 pd.business_outcomes
                with ⟨st2, e2, t2⟩
              simp only [h2] at hr
              have hr2 : r ∈ t1 ++ t2 := by
                cases e2 with
                | error e => simpa using hr
                | ok r2 => simpa using hr
              rw [List.mem_append] at hr2
              cases hr2 with
              | inl hmem => rw [hpe r hmem]
              | inr hmem =>
                  exact processBOs_trace_parent project (some i.key) pd.business_outcomes st1 r
                    (by rw [h2]; exact hmem)

theorem processPEs_trace_parent (project : String) (soKey : Option String) :
    ∀ (ps : List PEData) (st : BState),
      ∀ r ∈ (processPEs project soKey st ps).2.2, r.parent = none := by
  intro ps
  induction ps with
  | nil => intro st r hr; simp [processPEs] at hr
  | cons pd rest ih =>
      intro st r hr
      unfold processPEs at hr
      rcases h1 : processPE project soKey st pd with ⟨st1, e1, t1⟩
      simp only [h1] at hr
      cases e1 with
      | error e =>
          exact processPE_trace_parent project soKey st pd r
            (by rw [h1]; simpa using hr)
      | ok r1 =>
          rcases h2 : processPEs project soKey st1 rest with ⟨st2, e2, t2⟩
          simp only [h2] at hr
          have hr2 : r ∈ t1 ++ t2 := by
            cases e2 with
            | error e => simpa using hr
            | ok r2 => simpa using hr
          rw [List.mem_append] at hr2
          cases hr2 with
          | inl hmem =>
              exact processPE_trace_parent project soKey st pd r
                (by rw [h1]; exact hmem)
          | inr hmem => exact ih st1 r (by rw [h2]; exact hmem)

theorem processSO_trace_parent (st : BState) (so : SOEntry) :
    ∀ r ∈ (processSO st so).2.2, r.parent = none := by
  intro r hr
  have hso := create_strategic_objective_trace st so.project so.so_summary so.so_description
  unfold processSO at hr
  rcases hc : create_strategic_objective st so.project so.so_summary so.so_description
    with ⟨ro, st1, t1⟩
  rw [hc] at hso
  simp only [hc] at hr
  cases ro with
  | error e => rw [hso r (by simpa using hr)]
  | ok oi =>
      cases oi with
      | none => rw [hso r (by simpa using hr)]
      | some resp =>
          cases resp with
          | empty => rw [hso r (by simpa using hr)]
          | issue i =>
              rcases h2 : processPEs so.project (some i.key) st1 so.portfolio_epics
                with ⟨st2, e2, t2⟩
              simp only [h2] at hr
              have hr2 : r ∈ t1 ++ t2 := by
                cases e2 with
                | error e => simpa using hr
                | ok r2 => simpa using hr
              rw [List.mem_append] at hr2
              cases hr2 with
              | inl hmem => rw [hso r hmem]
              | inr hmem =>
                  exact processPEs_trace_parent so.project (some i.key) so.portfolio_epics st1 r
                    (by rw [h2]; exact hmem)

theorem build_hierarchy_trace_parent :
    ∀ (tree : List SOEntry) (st : BState),
      ∀ r ∈ (build_hierarchy st tree).2.2, r.parent = none := by
  intro tree
  induction tree with
  | nil => intro st r hr; simp [build_hierarchy] at hr
  | cons so rest ih =>
      intro st r hr
      unfold build_hierarchy at hr
      rcases h1 : processSO st so with ⟨st1, e1, t1⟩
      simp only [h1] at hr
      cases e1 with
      | error e =>
          exact processSO_trace_parent st so r (by rw [h1]; simpa using hr)
      | ok r1 =>
          rcases h2 : build_hierarchy st1 rest with ⟨st2, e2, t2⟩
          simp only [h2] at hr
          have hr2 : r ∈ t1 ++ t2 := by
            cases e2 with
            | error e => simpa using hr
            | ok r2 => simpa using hr
          rw [List.mem_append] at hr2
          cases hr2 with
          | inl hmem => exact processSO_trace_parent st so r (by rw [h1]; exact hmem)
          | inr hmem => exact ih st1 r (by rw [h2]; exact hmem)

/-- In dry-run mode, with every cached response falsy, `_find_or_create_issue`
returns a falsy response (the mock `{}`), sends nothing, leaves the
environment unchanged and keeps the cache all-falsy. -/
theorem find_or_create_issue_dry (s : FocState) (p ty sm : String)
    (d pk : Option String) (hdry : s.env.dryRun = true)
    (hc : cacheFalsy s = true) :
    ∃ (r : IssueResp) (s1 : FocState),
      find_or_create_issue s p ty sm d pk = (Except.ok (some r), s1, []) ∧
      r.truthy = false ∧ s1.env = s.env ∧ cacheFalsy s1 = true := by
  simp only [find_or_create_issue]
  cases hl : cacheLookup (make_key p ty sm) s.cache with
  | some r => exact ⟨r, s, rfl, cacheLookup_falsy hc hl, rfl, hc⟩
  | none =>
      have hfind : find_issue_by_summary s.env p sm (some ty) = Except.ok none := by
        simp [find_issue_by_summary, search_issues, hdry]
      have hcreate : create_issue s.env p ty sm d pk
          = (some IssueResp.empty, s.env, []) := by
        simp [create_issue, hdry]
      rw [hfind, hcreate]
      refine ⟨IssueResp.empty, _, rfl, rfl, rfl, ?_⟩
      simpa [cacheFalsy, IssueResp.truthy] using hc

/-- In dry-run mode one Strategic Objective iteration counts one error on its
level, changes nothing else, emits nothing and skips the whole subtree. -/
theorem processSO_dry (st : BState) (so : SOEntry)
    (hdry : st.foc.env.dryRun = true) (hc : cacheFalsy st.foc = true) :
    ∃ st1 : BState,
      processSO st so = (st1, Except.ok emptyR, []) ∧
      st1.foc.env = st.foc.env ∧ cacheFalsy st1.foc = true ∧
      st1.stats = { st.stats with strategic_objectives :=
        ({ st.stats.strategic_objectives with errors :=
            st.stats.strategic_objectives.errors + 1 }) } := by
  obtain ⟨r, s1, heq, htruthy, henv, hcf⟩ :=
    find_or_create_issue_dry st.foc so.project ISSUE_TYPE_NAMES_strategic_objective
      so.so_summary so.so_description none hdry hc
  have hre : r = IssueResp.empty := IssueResp.eq_empty_of_not_truthy htruthy
  subst hre
  have hso : create_strategic_objective st so.project so.so_summary so.so_description
      = (Except.ok (some IssueResp.empty),
         { foc := s1, stats := { st.stats with strategic_objectives :=
             (tally st.stats.strategic_objectives (some IssueResp.empty)) } },
         []) := by
    unfold create_strategic_objective
    rw [heq]
  refine ⟨{ foc := s1, stats := { st.stats with strategic_objectives :=
      (tally st.stats.strategic_objectives (some IssueResp.empty)) } },
    ?_, henv, hcf, rfl⟩
  unfold processSO
  rw [hso]

/-- In dry-run mode, from an all-falsy cache, the whole build counts exactly
one Strategic-Objective-level error per top-level node, leaves every other
counter untouched, returns empty result lists and sends nothing. -/
theorem build_hierarchy_dry :
    ∀ (tree : List SOEntry) (st : BState),
      st.foc.env.dryRun = true → cacheFalsy st.foc = true →
      ∃ st1 : BState,
        build_hierarchy st tree = (st1, Except.ok emptyR, []) ∧
        st1.foc.env = st.foc.env ∧ cacheFalsy st1.foc = true ∧
        st1.stats = { st.stats with strategic_objectives :=
          ({ st.stats.strategic_objectives with errors :=
              st.stats.strategic_objectives.errors + tree.length }) } := by
  intro tree
  induction tree with
  | nil =>
      intro st h1 h2
      exact ⟨st, rfl, rfl, h2, rfl⟩
  | cons so rest ih =>
      intro st h1 h2
      obtain ⟨st1, hso, henv, hcf, hstats⟩ := processSO_dry st so h1 h2
      obtain ⟨st2, hrest, henv2, hcf2, hstats2⟩ := ih st1 (by rw [henv]; exact h1) hcf
      refine ⟨st2, ?_, by rw [henv2, henv], hcf2, ?_⟩
      · unfold build_hierarchy
        simp only [hso, hrest]
        rfl
      · rw [hstats2, hstats]
        simp only [List.length_cons]
        have : st.stats.strategic_objectives.errors + 1 + rest.length
            = st.stats.strategic_objectives.errors + (rest.length + 1) := by omega
        simp [this]

/-! ## Claims -/

/-- **C1** (code behaviour at the failing input).  Running the Hierarchy
Builder a second time against the tracker state left by a first run creates no
new issues (the tracker is unchanged and no create request reaches the
transport layer), but every per-level count of the second run lands in
`created`, not in `exists`: the `'key' in issue` test of the per-level
creators is true for search hits as well as for create responses, so the
second run reports `created = 1, exists = 0` per level where the claim (and
the spec's idempotency invariant) require `created = 0, exists = 1`. -/
theorem c1_second_run_counted_as_created :
    c1SecondRun.2.2 = [] ∧
    c1SecondRun.1.foc.env.tracker = c1FirstRun.1.foc.env.tracker ∧
    c1FirstRun.1.stats = ⟨⟨1, 0, 0⟩, ⟨1, 0, 0⟩, ⟨1, 0, 0⟩, ⟨1, 0, 0⟩⟩ ∧
    c1SecondRun.1.stats = ⟨⟨1, 0, 0⟩, ⟨1, 0, 0⟩, ⟨1, 0, 0⟩, ⟨1, 0, 0⟩⟩ := by
  decide

/-- **C2** (counterexample).  The claim asserts that with preview mode enabled
every read/lookup/search operation still executes against the remote system
and populates the summary report.  But `search_issues` posts its JQL, and
`_request` short-circuits every non-GET method in dry-run mode: the search
never reaches the transport layer, and a lookup for an issue that *does* exist
on the tracker comes back empty. -/
theorem c2_dry_run_search_counterexample :
    reachesTransport true searchMethod = false ∧
    envDryLookup.dryRun = true ∧
    deployGateV1 ∈ envDryLookup.tracker ∧
    deployGateV1.summary = "Deploy gate" ∧
    find_issue_by_summary envDryLookup "P" "Deploy gate" (some "Feature")
        = Except.ok none :=
  ⟨by decide, rfl, by decide, by decide, rfl⟩

/-- **C2** (amended).  With preview mode enabled, no non-GET request reaches
the transport layer: creation/update/delete calls short-circuit to a logged
no-op success, but the search-based lookups, which use POST, are equally
short-circuited and return no candidates; only GET requests still execute
(and without preview mode everything reaches the transport layer). -/
theorem c2_dry_run_gate_amended :
    (∀ m : Method, reachesTransport true m = (m == Method.GET)) ∧
    (∀ m : Method, reachesTransport false m = true) ∧
    (∀ (env : Env) (project summary : String) (itype : Option String),
        env.dryRun = true →
          find_issue_by_summary env project summary itype = Except.ok none) := by
  refine ⟨?_, ?_, ?_⟩
  · intro m; cases m <;> rfl
  · intro m; cases m <;> rfl
  · intro env project summary itype h
    simp [find_issue_by_summary, search_issues, h]

theorem c2_dry_run_gate_amended_witness :
    find_issue_by_summary envDryLookup "P" "Deploy gate" (some "Feature")
        = Except.ok none :=
  c2_dry_run_gate_amended.2.2 envDryLookup "P" "Deploy gate" (some "Feature") rfl

/-- **C6**.  For a newly created constraint the status guard of
`create_constraint` together with `_transition_to_status` issues, against the
configured constraint workflow, exactly the transition-execute calls of the
lookup table, in order: `"Ready for Review"` yields `"Start Work"` then
`"Submit for Review"`; `"In Progress"` yields `"Start Work"` alone;
`"Closed"` yields all three; the default `"Identified"` (declared or absent)
yields none. -/
theorem c6_status_path_application :
    (constraint_status_calls CONSTRAINT_WORKFLOW_transitions (some "Ready for Review")).2.1
        = ["Start Work", "Submit for Review"] ∧
    (constraint_status_calls CONSTRAINT_WORKFLOW_transitions (some "In Progress")).2.1
        = ["Start Work"] ∧
    (constraint_status_calls CONSTRAINT_WORKFLOW_transitions (some "Closed")).2.1
        = ["Start Work", "Submit for Review", "Approve & Close"] ∧
    (constraint_status_calls CONSTRAINT_WORKFLOW_transitions (some "Identified")).2.1 = [] ∧
    (constraint_status_calls CONSTRAINT_WORKFLOW_transitions none).2.1 = [] := by
  decide

/-- **C7** (counterexample).  The claim asserts the transition walk aborts at
the first transition whose name matches no available transition, executing no
later transition in the path.  Under a workflow where `"Start Work"` is not
available on the issue but `"Submit for Review"` is, the walk toward
`"Ready for Review"` fails its first step — `transition_issue` returns
`false` — and yet executes the later `"Submit for Review"` transition: the
loop in `_transition_to_status` ignores the boolean result and only a raised
exception breaks it. -/
theorem c7_walk_continues_counterexample :
    (transition_issue wfNoStartWork "Identified" "Start Work").1 = false ∧
    (transition_to_status wfNoStartWork "Identified" "Ready for Review").2.1
        = ["Submit for Review"] := by
  decide

/-- **C7** (amended).  While walking the ordered transition path, a transition
whose name fails to match is logged as a warning but does not abort the walk:
its boolean soft-failure result is ignored and every remaining transition in
the path is still attempted (only a raised exception aborts the walk); a
non-matching step leaves the status unchanged at that step. -/
theorem c7_walk_attempts_whole_path :
    ∀ (wf : List WTrans) (status0 target : String),
      (transition_to_status wf status0 target).2.2 = transition_paths target ∧
      ∀ status name, (transition_issue wf status name).1 = false →
        (transition_issue wf status name).2 = (status, []) := by
  have hfold : ∀ (wf : List WTrans) (names : List String)
      (st : String) (e a : List String),
      (names.foldl (transition_step wf) (st, e, a)).2.2 = a ++ names := by
    intro wf names
    induction names with
    | nil => intro st e a; simp
    | cons n rest ih =>
        intro st e a
        rw [List.foldl_cons]
        rcases h1 : transition_issue wf st n with ⟨b, st1, posts⟩
        have hstep : transition_step wf (st, e, a) n = (st1, e ++ posts, a ++ [n]) := by
          simp [transition_step, h1]
        rw [hstep, ih]
        simp
  intro wf status0 target
  constructor
  · simpa using hfold wf (transition_paths target) status0 [] []
  · intro status name h
    unfold transition_issue at h ⊢
    cases hf : (wf.filter (fun t => t.src == status)).find?
        (fun t => t.name == name) with
    | some t => rw [hf] at h; simp at h
    | none => rfl

theorem c7_walk_attempts_whole_path_witness :
    (transition_to_status wfNoStartWork "Identified" "Ready for Review").2.2
        = transition_paths "Ready for Review" ∧
    (transition_issue wfNoStartWork "Identified" "Start Work").2
        = ("Identified", []) :=
  ⟨(c7_walk_attempts_whole_path wfNoStartWork "Identified" "Ready for Review").1,
   (c7_walk_attempts_whole_path wfNoStartWork "Identified" "Ready for Review").2
     "Identified" "Start Work" (by decide)⟩

/-- **C9** (code behaviour at the failing input).  When the link-type name
resolves to no known link type, `create_issue_link` indeed fails softly: it
returns `false`, sends no link-create request, and raises nothing.  But
`link_constraint_to_target` ignores that boolean: with the target present and
no known link types, it increments `links_created` (not `links_failed`),
reports success, and still sends nothing — the failure is never recorded as a
failed link in the run statistics. -/
theorem c9_unknown_link_type_counted_as_created :
    create_issue_link [] "DEVEX-1" "CON-1" "Blocks" = (false, []) ∧
    link_constraint_to_target envWithTarget [] ⟨0, 0⟩ "CON-1" blocksTarget
        = (Except.ok true, ⟨1, 0⟩, []) :=
  ⟨by decide, rfl⟩

/-- **C3**.  `find_issue_by_summary` performs a client-side exact comparison
on summary over the server's contains candidates: any issue it returns has
exactly the requested summary (and lies on the tracker); when it returns
none, no issue of the requested project and type has that exact summary; and
with candidates `"Deploy gate v2"` and `"Deploy gate"` (in that server
order) a lookup for `"Deploy gate"` returns only the exact one, never the
`v2` issue. -/
theorem c3_exact_match_lookup :
    (∀ (tracker : List Issue) (project summary : String) (itype : Option String)
       (i : Issue),
        find_issue_by_summary (mkFindEnv tracker) project summary itype
            = Except.ok (some i) →
          i.summary = summary ∧ i ∈ tracker) ∧
    (∀ (tracker : List Issue) (project summary t : String),
        find_issue_by_summary (mkFindEnv tracker) project summary (some t)
            = Except.ok none →
          ∀ i ∈ tracker, i.project = project → i.itype = t → i.summary ≠ summary) ∧
    find_issue_by_summary (mkFindEnv [deployGateV2, deployGateV1]) "P" "Deploy gate"
        (some "Feature") = Except.ok (some deployGateV1) := by
  refine ⟨?_, ?_, rfl⟩
  · intro tracker project summary itype i h
    simp only [find_issue_by_summary, search_issues, mkFindEnv,
      Bool.false_eq_true, if_false, Except.ok.injEq] at h
    refine ⟨by simpa using List.find?_some h, ?_⟩
    exact (List.mem_filter.mp (List.mem_of_find?_eq_some h)).1
  · intro tracker project summary t h i hi hproj hty hsum
    simp only [find_issue_by_summary, search_issues, mkFindEnv,
      Bool.false_eq_true, if_false, Except.ok.injEq] at h
    have hmem : i ∈ searchCandidates tracker project summary (some t) := by
      refine List.mem_filter.mpr ⟨hi, ?_⟩
      simp [hproj, hty, hsum, containsSubstr_refl]
    have hno := List.find?_eq_none.mp h i hmem
    simp [hsum] at hno

theorem c3_exact_match_lookup_witness :
    deployGateV1.summary = "Deploy gate" ∧ deployGateV1 ∈ [deployGateV2, deployGateV1] :=
  c3_exact_match_lookup.1 [deployGateV2, deployGateV1] "P" "Deploy gate"
    (some "Feature") deployGateV1 rfl

/-- **C4**.  Parent propagation: every Feature create request issued under a
Business Outcome carries exactly that parent key in the parent-link custom
field `customfield_10108`; within one Business Outcome subtree, every Feature
create request carries the key of the Business Outcome issue created or found
immediately above it (and a Portfolio Epic / Business Outcome request
likewise carries the key passed from the level above, by the first
conjunct's shape at those levels); and no create request of a whole build
ever sets the tracker's native sub-task `parent` field. -/
theorem c4_parent_propagation :
    (∀ (project : String) (boKey : Option String) (st : BState)
       (fs : List FeatureData),
        ∀ r ∈ (processFeatures project boKey st fs).2.2,
          r.itype = ISSUE_TYPE_NAMES_feature ∧ r.customfield_10108 = boKey ∧
          r.parent = none) ∧
    (∀ (project : String) (peKey : Option String) (st : BState) (bd : BOData),
        ∀ r ∈ (processBO project peKey st bd).2.2,
          r.itype = ISSUE_TYPE_NAMES_feature →
            ∃ i : Issue,
              (create_business_outcome st project bd.summary peKey bd.description).1
                  = Except.ok (some (IssueResp.issue i)) ∧
              r.customfield_10108 = some i.key ∧ r.parent = none) ∧
    (∀ (st : BState) (tree : List SOEntry),
        ∀ r ∈ (build_hierarchy st tree).2.2, r.parent = none) := by
  refine ⟨fun project boKey st fs => processFeatures_trace project boKey fs st, ?_,
          fun st tree => build_hierarchy_trace_parent tree st⟩
  intro project peKey st bd r hr hft
  have hbo := create_business_outcome_trace st project bd.summary peKey bd.description
  unfold processBO at hr
  rcases hc : create_business_outcome st project bd.summary peKey bd.description
    with ⟨ro, st1, t1⟩
  rw [hc] at hbo
  simp only [hc] at hr
  cases ro with
  | error e =>
      rw [hbo r (by simpa using hr)] at hft
      simp [ISSUE_TYPE_NAMES_business_outcome, ISSUE_TYPE_NAMES_feature] at hft
  | ok oi =>
      cases oi with
      | none =>
          rw [hbo r (by simpa using hr)] at hft
          simp [ISSUE_TYPE_NAMES_business_outcome, ISSUE_TYPE_NAMES_feature] at hft
      | some resp =>
          cases resp with
          | empty =>
              rw [hbo r (by simpa using hr)] at hft
              simp [ISSUE_TYPE_NAMES_business_outcome, ISSUE_TYPE_NAMES_feature] at hft
          | issue i =>
              rcases h2 : processFeatures project (some i.key) st1 bd.features
                with ⟨st2, e2, t2⟩
              simp only [h2] at hr
              have hr2 : r ∈ t1 ++ t2 := by
                cases e2 with
                | error e => simpa using hr
                | ok r2 => simpa using hr
              rw [List.mem_append] at hr2
              cases hr2 with
              | inl hmem =>
                  rw [hbo r hmem] at hft
                  simp [ISSUE_TYPE_NAMES_business_outcome, ISSUE_TYPE_NAMES_feature] at hft
              | inr hmem =>
                  have hf := processFeatures_trace project (some i.key) bd.features st1 r
                    (by rw [h2]; exact hmem)
                  exact ⟨i, rfl, hf.2.1, hf.2.2⟩

theorem c4_parent_propagation_witness :
    ∃ i : Issue,
      (create_business_outcome st0 "P" bdOutcomeA.summary (some "P-9")
          bdOutcomeA.description).1 = Except.ok (some (IssueResp.issue i)) ∧
      featReqA.customfield_10108 = some i.key ∧ featReqA.parent = none :=
  c4_parent_propagation.2.1 "P" (some "P-9") st0 bdOutcomeA featReqA
    (by decide) (by decide)

/-- **C5** (counterexample).  The claim asserts that when creation/lookup of
a hierarchy node fails, the error is counted, only that subtree is skipped,
and sibling nodes are still attempted — a per-branch failure never aborts the
whole run.  But the lookup in `_find_or_create_issue` (setup_hierarchy.py
line 44) sits *outside* the `try/except`: with a transport error raised by
the search for the first Portfolio Epic, the whole loop aborts with the
propagating exception — no create request is sent at all, the sibling
`"Epic G"` is never attempted, and no error counter is incremented. -/
theorem c5_lookup_failure_aborts_counterexample :
    (processPEs "P" (some "P-9") stSearchFail [pdEpicF, pdSibling]).2.1
        = Except.error () ∧
    (processPEs "P" (some "P-9") stSearchFail [pdEpicF, pdSibling]).2.2 = [] ∧
    (processPEs "P" (some "P-9") stSearchFail [pdEpicF, pdSibling]).1.stats
        = initialBStats :=
  ⟨rfl, rfl, rfl⟩

/-- **C5** (amended).  Fail-isolated traversal holds for *create* failures: a
caught create error (or the dry-run mock) yields a falsy response, the
builder increments that level's error counter, emits no request beyond the
node's own attempted create (every request in the trace is
Portfolio-Epic-typed, so no descendant is ever attempted), produces no result
entries for the subtree, and the loop continues with the remaining siblings,
composing their results.  A failed *lookup*, however — a transport error on
the find-by-summary search, which sits outside the per-node `try/except` —
is not isolated: it propagates, the loop stops with the error and no sibling
or later node is attempted. -/
theorem c5_create_fail_isolated_lookup_fail_aborts :
    ∀ (project : String) (soKey : Option String) (st : BState) (pd : PEData),
      (∀ ro : Option IssueResp,
        (create_portfolio_epic st project pd.summary soKey pd.description).1
            = Except.ok ro →
        respFalsy ro = true →
        processPE project soKey st pd
            = ((create_portfolio_epic st project pd.summary soKey pd.description).2.1,
               Except.ok emptyR,
               (create_portfolio_epic st project pd.summary soKey pd.description).2.2) ∧
        (create_portfolio_epic st project pd.summary soKey pd.description).2.1.stats.portfolio_epics.errors
            = st.stats.portfolio_epics.errors + 1 ∧
        ∀ r ∈ (create_portfolio_epic st project pd.summary soKey pd.description).2.2,
          r.itype = ISSUE_TYPE_NAMES_portfolio_epic) ∧
      (∀ (rest : List PEData) (st1 : BState) (r1 : HResult) (t1 : List CreateReq)
         (st2 : BState) (r2 : HResult) (t2 : List CreateReq),
        processPE project soKey st pd = (st1, Except.ok r1, t1) →
        processPEs project soKey st1 rest = (st2, Except.ok r2, t2) →
        processPEs project soKey st (pd :: rest)
            = (st2, Except.ok (HResult.app r1 r2), t1 ++ t2)) ∧
      (∀ (rest : List PEData) (st1 : BState) (r1 : HResult) (t1 : List CreateReq)
         (st2 : BState) (e : Unit) (t2 : List CreateReq),
        processPE project soKey st pd = (st1, Except.ok r1, t1) →
        processPEs project soKey st1 rest = (st2, Except.error e, t2) →
        processPEs project soKey st (pd :: rest) = (st2, Except.error e, t1 ++ t2)) ∧
      (∀ (rest : List PEData) (st1 : BState) (e : Unit) (t1 : List CreateReq),
        processPE project soKey st pd = (st1, Except.error e, t1) →
        processPEs project soKey st (pd :: rest) = (st1, Except.error e, t1)) ∧
      (st.foc.env.dryRun = false →
       st.foc.env.failSearch project pd.summary (some ISSUE_TYPE_NAMES_portfolio_epic)
           = true →
       cacheLookup (make_key project ISSUE_TYPE_NAMES_portfolio_epic pd.summary)
           st.foc.cache = none →
       processPE project soKey st pd = (st, Except.error (), [])) := by
  intro project soKey st pd
  refine ⟨?_, ?_, ?_, ?_, ?_⟩
  · intro ro hok hfalsy
    have htr := create_portfolio_epic_trace st project pd.summary soKey pd.description
    have hstats :=
      create_portfolio_epic_stats_ok st project pd.summary soKey pd.description ro hok
    refine ⟨?_, ?_, fun r hr => by rw [htr r hr]⟩
    · unfold processPE
      rcases hc : create_portfolio_epic st project pd.summary soKey pd.description
        with ⟨e1, st1, t1⟩
      rw [hc] at hok
      have he1 : e1 = Except.ok ro := hok
      subst he1
      cases ro with
      | none => rfl
      | some resp =>
          cases resp with
          | empty => rfl
          | issue i => simp [respFalsy, IssueResp.truthy] at hfalsy
    · rw [hstats, tally_falsy st.stats.portfolio_epics hfalsy]
  · intro rest st1 r1 t1 st2 r2 t2 hpe hrest
    simp only [processPEs, hpe, hrest]
  · intro rest st1 r1 t1 st2 e t2 hpe hrest
    simp only [processPEs, hpe, hrest]
  · intro rest st1 e t1 hpe
    simp only [processPEs, hpe]
  · intro hdry hfs hcache
    have hfind : find_issue_by_summary st.foc.env project pd.summary
        (some ISSUE_TYPE_NAMES_portfolio_epic) = Except.error () := by
      unfold find_issue_by_summary search_issues
      simp [hdry, hfs]
    have hfoc : find_or_create_issue st.foc project ISSUE_TYPE_NAMES_portfolio_epic
        pd.summary pd.description soKey = (Except.error (), st.foc, []) := by
      simp only [find_or_create_issue]
      simp only [hcache, hfind]
    have hcpe : create_portfolio_epic st project pd.summary soKey pd.description
        = (Except.error (), st, []) := by
      unfold create_portfolio_epic
      rw [hfoc]
    unfold processPE
    rw [hcpe]

theorem c5_create_fail_isolated_lookup_fail_aborts_witness :
    (processPE "P" (some "P-9") stPEFail pdEpicF
        = (cpeF.2.1, Except.ok emptyR, cpeF.2.2) ∧
     cpeF.2.1.stats.portfolio_epics.errors
         = stPEFail.stats.portfolio_epics.errors + 1 ∧
     ∀ r ∈ cpeF.2.2, r.itype = ISSUE_TYPE_NAMES_portfolio_epic) ∧
    processPE "P" (some "P-9") stSearchFail pdEpicF
        = (stSearchFail, Except.error (), []) :=
  ⟨(c5_create_fail_isolated_lookup_fail_aborts "P" (some "P-9") stPEFail pdEpicF).1
     none rfl (by decide),
   (c5_create_fail_isolated_lookup_fail_aborts "P" (some "P-9") stSearchFail
     pdEpicF).2.2.2.2 rfl rfl rfl⟩

/-- **C8**.  When the target-resolution search completes (it does not raise)
and no issue on the tracker has exactly the declared project, mapped type and
summary of a constraint's `blocks` record, the target resolution comes back
empty, `links_failed` increments by exactly one, `links_created` is
untouched, and no link-create request is sent. -/
theorem c8_link_resolution_failure :
    ∀ (env : Env) (link_types : List String) (stats : LinkStats)
      (constraint_key : String) (blocks : BlocksInfo),
      env.failSearch blocks.project blocks.summary
          (some (type_mapping blocks.btype)) = false →
      (∀ i ∈ env.tracker,
          ¬(i.project = blocks.project ∧ i.itype = type_mapping blocks.btype ∧
            i.summary = blocks.summary)) →
      link_constraint_to_target env link_types stats constraint_key blocks
          = (Except.ok false,
             { stats with links_failed := stats.links_failed + 1 }, []) := by
  intro env link_types stats ck blocks hfs h
  have hfind : find_target_issue env blocks.project blocks.btype blocks.summary
      = Except.ok none := by
    unfold find_target_issue find_issue_by_summary search_issues
    cases hd : env.dryRun with
    | true => simp
    | false =>
        simp only [Bool.false_eq_true, if_false, hfs, Except.ok.injEq]
        rw [List.find?_eq_none]
        intro x hx
        simp only [searchCandidates, List.mem_filter, Bool.and_eq_true,
          beq_iff_eq] at hx
        simp only [beq_iff_eq]
        intro hsum
        exact h x hx.1 ⟨hx.2.1.1, hx.2.2, hsum⟩
  unfold link_constraint_to_target
  rw [hfind]

theorem c8_link_resolution_failure_witness :
    link_constraint_to_target env0 ["Blocks"] ⟨0, 0⟩ "CON-1" blocksTarget
        = (Except.ok false, ⟨0, 0 + 1⟩, []) :=
  c8_link_resolution_failure env0 ["Blocks"] ⟨0, 0⟩ "CON-1" blocksTarget rfl
    (by intro i hi; simp [env0] at hi)

/-- **C10**.  In dry-run mode every non-GET request returns the empty object,
so a create-issue call yields an empty mapping, which the Hierarchy Builder
treats as a failed node: a dry run (here against a tracker where the issues
do not yet exist — in fact against any tracker, since the POST-based search
is also mocked) counts one Strategic-Objective-level error per top-level
node, attempts none of their children (all lower-level counters stay zero and
no request reaches the transport layer), and reports zero created and zero
existing issues with empty result lists. -/
theorem c10_dry_run_errors_every_top_node :
    ∀ (env : Env) (tree : List SOEntry), env.dryRun = true →
      (build_hierarchy_run env tree).2.1 = Except.ok emptyR ∧
      (build_hierarchy_run env tree).2.2 = [] ∧
      (build_hierarchy_run env tree).1.stats
          = ⟨⟨0, 0, tree.length⟩, ⟨0, 0, 0⟩, ⟨0, 0, 0⟩, ⟨0, 0, 0⟩⟩ := by
  intro env tree h
  obtain ⟨st1, heq, henv, hcf, hstats⟩ :=
    build_hierarchy_dry tree
      { foc := { cache := [], env := env }, stats := initialBStats } h rfl
  unfold build_hierarchy_run
  rw [heq]
  refine ⟨rfl, rfl, ?_⟩
  rw [hstats]
  simp [initialBStats, initialStats]

theorem c10_dry_run_errors_every_top_node_witness :
    (build_hierarchy_run envDry0 tree1).2.1 = Except.ok emptyR ∧
    (build_hierarchy_run envDry0 tree1).2.2 = [] ∧
    (build_hierarchy_run envDry0 tree1).1.stats
        = ⟨⟨0, 0, tree1.length⟩, ⟨0, 0, 0⟩, ⟨0, 0, 0⟩, ⟨0, 0, 0⟩⟩ :=
  c10_dry_run_errors_every_top_node envDry0 tree1 rfl

end JiraGen
